import Mathlib

/-!
Verification of the bcsync upload-and-deduplicate core.

Shallow embedding of the Python sources:
  * `src/ballchasing_api.py` — upload client (`upload_replay`);
  * `src/replay.py` — replay entity (`Replay`, `Replay.upload`);
  * `src/bcsync.py` — orchestration (`handle_replay`, the per-tick upload
    loop, check-only mode);
  * `src/session.py` — session aggregator (`update_session_statistics`);
  * `src/file_handlers.py` / `common/file_handlers.py` — duplicate-record
    compaction (`remove_duplicate_lines_from_file`) and log rotation
    (`get_next_rotate_index`, `write_rotated_log`);
  * `src/string_manip.py` / `common/string_manip.py` — `truncate_string`.

File contents are modelled as `List Char`; the network is modelled by
passing the response the remote would return as an explicit argument, with
the number of network exchanges reported in the output, so that
"issues no network call" is a provable statement.
-/

namespace Bcsync

/-! ## Upload Client (`src/ballchasing_api.py`) -/

/-- Fixed base URL from `Config.web_url`. -/
def web_url : String := "https://ballchasing.com"

/-- The parts of the remote HTTP response that `upload_replay` inspects:
the status code and the `id` field of the JSON body. -/
structure UploadResponse where
  status_code : Nat
  id : String
deriving DecidableEq

/-- Mirror of the `UploadResult` dict built by `upload_replay`:
`result` is the literal string `"success"`, `"duplicate"` or `"fail"`,
`id` the ballchasing replay id (empty when none was extracted). -/
structure UploadResult where
  status_code : Nat
  result : String
  id : String
deriving DecidableEq

/-- Embedding of `ballchasing_api.upload_replay`: the result starts as
`fail` with empty id, a 201 response overwrites it with `success` and the
body id, a 409 response with `duplicate` and the body id. -/
def upload_replay (resp : UploadResponse) : UploadResult :=
  if resp.status_code = 201 then
    { status_code := resp.status_code, result := "success", id := resp.id }
  else if resp.status_code = 409 then
    { status_code := resp.status_code, result := "duplicate", id := resp.id }
  else
    { status_code := resp.status_code, result := "fail", id := "" }

/-! ## Replay Entity (`src/replay.py`) -/

/-- Character-level scan underlying `basename`: keeps the component read
since the last slash (in reverse, for structural recursion). -/
def basenameAux : List Char → List Char → List Char
  | [], acc => acc.reverse
  | c :: rest, acc =>
    if c = '/' then basenameAux rest [] else basenameAux rest (c :: acc)

/-- Embedding of `os.path.basename`: the final path component after the
last slash (empty when the path ends in a slash). -/
def basename (path : String) : String := String.mk (basenameAux path.toList [])

/-- Mirror of the mutable attributes set by `Replay.__init__` and
`Replay.upload`. -/
structure Replay where
  path : String
  basename : String
  duplicate : Bool
  visibility : String
  ballchasing_id : String
  upload_result : String
deriving DecidableEq

/-- Embedding of `Replay.__init__`: `known` is the duplicate-store
snapshot read at construction time; `duplicate` is the membership test
`self.basename in self.known_duplicates`, computed once. -/
def Replay.init (known : List String) (path : String) : Replay :=
  { path := path
    basename := Bcsync.basename path
    duplicate := decide (Bcsync.basename path ∈ known)
    visibility := "private"
    ballchasing_id := ""
    upload_result := "" }

/-- Mirror of the `ReplayData` dict returned by `Replay.upload`. -/
structure ReplayData where
  result : String
  id : String
  basename : String
  url : String
  watch_url : String
deriving DecidableEq

/-- Result of one `Replay.upload` call: how many network exchanges were
performed, the entity state afterwards, and the returned record
(`none` models Python `None`). -/
structure UploadStep where
  networkCalls : Nat
  replay : Replay
  record : Option ReplayData
deriving DecidableEq

/-- Embedding of `Replay.upload`: a known duplicate returns `None`
without touching the network or the entity; otherwise exactly one
`upload_replay` exchange happens, the entity records outcome and id, and
a `ReplayData` with the derived viewer URLs is returned. -/
def Replay.upload (r : Replay) (resp : UploadResponse) : UploadStep :=
  if r.duplicate then
    { networkCalls := 0, replay := r, record := none }
  else
    let ur := upload_replay resp
    let url := web_url ++ "/replay/" ++ ur.id
    { networkCalls := 1
      replay := { r with ballchasing_id := ur.id, upload_result := ur.result }
      record := some
        { result := ur.result, id := ur.id, basename := r.basename
          url := url, watch_url := url ++ "#watch" } }

/-! ## Run Orchestrator (`src/bcsync.py`) -/

/-- Result of one `handle_replay` call: the duplicate store afterwards
(abstracted as the list of recorded basenames, in append order), the
returned record, the entity state, and the network-call count. -/
structure HandleOut where
  store : List String
  record : Option ReplayData
  replay : Replay
  networkCalls : Nat
deriving DecidableEq

/-- Embedding of `bcsync.handle_replay` (with `bcsync.upload_replay`
inlined: that wrapper only adds logging around `Replay.upload`): a
`None` record passes through; otherwise the basename is appended to the
duplicates file exactly when the result is `"success"` or
`"duplicate"`. -/
def handle_replay (store : List String) (r : Replay) (resp : UploadResponse) :
    HandleOut :=
  let step := r.upload resp
  match step.record with
  | none =>
    { store := store, record := none, replay := step.replay
      networkCalls := step.networkCalls }
  | some rd =>
    if rd.result = "success" ∨ rd.result = "duplicate" then
      { store := store ++ [rd.basename], record := some rd
        replay := step.replay, networkCalls := step.networkCalls }
    else
      { store := store, record := some rd, replay := step.replay
        networkCalls := step.networkCalls }

/-- Accumulated output of the per-tick upload loop in `bcsync.main`. -/
structure LoopOut where
  store : List String
  records : List (Option ReplayData)
  networkCalls : Nat
deriving DecidableEq

/-- Embedding of the upload loop of `bcsync.main`: entities are handled
in discovery order, each paired with the response its (potential) network
exchange would yield; the duplicates file evolves through the loop. -/
def runUploadLoop (store : List String) :
    List (Replay × UploadResponse) → LoopOut
  | [] => { store := store, records := [], networkCalls := 0 }
  | p :: rest =>
    let h := handle_replay store p.1 p.2
    let out := runUploadLoop h.store rest
    { store := out.store, records := h.record :: out.records
      networkCalls := h.networkCalls + out.networkCalls }

/-- Embedding of the check-only branch of `bcsync.main`:

    if args.check:
        for replay in replays:
            print_replay_attributes(replay)
            return SUCCESS

The `return` sits inside the loop body, so the first iteration prints one
entity and leaves `main`; with no discovered entities the loop body never
runs and control falls through to the upload phase. Output: the entities
whose attributes were surfaced, and whether the tick was cut short. -/
def check_mode_tick (replays : List Replay) : List Replay × Bool :=
  match replays with
  | [] => ([], false)
  | r :: _ => ([r], true)

/-! ## Session Aggregator (`src/session.py`) -/

/-- Mirror of `runner.RunResult` (timestamps are abstracted to `Nat`). -/
structure RunResult where
  timestamp : Nat
  replaydatas : List ReplayData
deriving DecidableEq

/-- Mirror of `session.SessionData`. -/
structure SessionData where
  total_replays : Nat
  total_duplicates : Nat
  old_duplicates : Nat
  new_uploads : Nat
  new_duplicates : Nat
  run_results : List RunResult
deriving DecidableEq

/-- Embedding of `Session.update_session_statistics`: new uploads and new
duplicates are accumulated, old duplicates are recomputed from the tick's
entity set, the totals are derived, and the run result is kept only when
it has at least one record. -/
def update_session_statistics (sd : SessionData) (replays : List Replay)
    (run_result : RunResult) : SessionData :=
  let nu := sd.new_uploads +
    (replays.filter (fun r => r.upload_result = "success")).length
  let od :=
    (replays.filter (fun r => r.upload_result = "" ∧ r.duplicate = true)).length
  let nd := sd.new_duplicates +
    (replays.filter (fun r => r.upload_result = "duplicate")).length
  { total_replays := (od + nd) + nu
    total_duplicates := od + nd
    old_duplicates := od
    new_uploads := nu
    new_duplicates := nd
    run_results :=
      if 0 < run_result.replaydatas.length then sd.run_results ++ [run_result]
      else sd.run_results }

/-! ## Log Rotator (`src/file_handlers.py`) -/

/-- Default of `Config.max_session_logfiles`. -/
def max_session_logfiles : Nat := 10

/-- Embedding of `get_next_rotate_index`: the sidecar `.rotate` file
holds the last-used index; an absent sidecar (FileNotFoundError) means
index 0. -/
def get_next_rotate_index (rotate : Option Nat) : Nat :=
  match rotate with
  | some i => i + 1
  | none => 0

/-- Observable effect of one `write_rotated_log` call: the log file
written (relative to the log directory), the text handed to
`overwrite_to_file`, and the value stored back into the sidecar. -/
structure RotatedLogWrite where
  log_file : String
  content : String
  rotate : Nat
deriving DecidableEq

/-- Embedding of `write_rotated_log`: the next index comes from the
sidecar, wraps to 0 once it exceeds `maxLogs`, is used as the filename
suffix (absent when 0), and is written back to the sidecar. -/
def write_rotated_log (rotate : Option Nat) (maxLogs : Nat)
    (identifier text : String) : RotatedLogWrite :=
  let next0 := get_next_rotate_index rotate
  let next := if next0 > maxLogs then 0 else next0
  { log_file :=
      identifier ++ ".log" ++ (if next > 0 then toString next else "")
    content := text
    rotate := next }

/-! ## Duplicate-record compaction (`src/file_handlers.py`)

File contents are `List Char`; an absent file is `none`. -/

/-- Characters Python `str.rstrip()` removes by default (the whitespace
set relevant to text files). -/
def isPySpace (c : Char) : Bool :=
  c = ' ' || c = '\t' || c = '\n' || c = '\r' ||
  c = '\x0b' || c = '\x0c'

/-- Embedding of Python `str.rstrip()`. -/
def rstrip (l : List Char) : List Char :=
  (l.reverse.dropWhile isPySpace).reverse

/-- What `overwrite_to_file`/`append_to_file` put into the file for one
line of text: `text.rstrip() + "\n"`. -/
def writeLine (l : List Char) : List Char := rstrip l ++ ['\n']

/-- Accumulator form of Python `readlines`: splits after every newline,
keeping the terminators, with a possibly unterminated final line. -/
def readlinesAux : List Char → List Char → List (List Char)
  | [], acc => if acc.isEmpty then [] else [acc.reverse]
  | c :: rest, acc =>
    if c = '\n' then (acc.reverse ++ ['\n']) :: readlinesAux rest []
    else readlinesAux rest (c :: acc)

/-- Embedding of Python `f.readlines()` on the file content. -/
def readlines (content : List Char) : List (List Char) :=
  readlinesAux content []

/-- Deterministic rendering of Python `list(set(lines))`: keeps the first
occurrence of each line, in order (the spec leaves the order after
compaction unspecified but requires it deterministic). `seen` carries the
elements already emitted. -/
def dedupFirstAux {α : Type} [DecidableEq α] : List α → List α → List α
  | [], _ => []
  | x :: xs, seen =>
    if x ∈ seen then dedupFirstAux xs seen
    else x :: dedupFirstAux xs (x :: seen)

/-- Deterministic rendering of `list(set(lines))`, see `dedupFirstAux`. -/
def dedupFirst {α : Type} [DecidableEq α] (l : List α) : List α :=
  dedupFirstAux l []

/-- Embedding of `remove_duplicate_lines_from_file`. An absent file is
left absent with 0 bytes written. Otherwise the unique raw lines are
computed and the first is written with `overwrite_to_file`, the rest
appended with `append_to_file`; indexing `uniques_list[0]` on an empty
unique list is an unguarded IndexError, modelled by the outer `none`.
The returned `Nat` is the total byte count reported by the writes, which
equals the length of the final content. -/
def remove_duplicate_lines_from_file (file : Option (List Char)) :
    Option (Option (List Char) × Nat) :=
  match file with
  | none => some (none, 0)
  | some content =>
    match dedupFirst (readlines content) with
    | [] => none
    | u :: rest =>
      let final := rest.foldl (fun acc r => acc ++ writeLine r) (writeLine u)
      some (some final, final.length)

/-- Lines of the shape the store's own writers produce: some text with no
trailing whitespace, terminated by a single newline. Stated through
`rstrip` so it is decidable: the line equals its own `rstrip` plus a
newline, and contains no interior newline. -/
def cleanLine (l : List Char) : Bool :=
  decide (rstrip l ++ ['\n'] = l) && decide ('\n' ∉ rstrip l)

/-! ## String truncation (`src/string_manip.py`) -/

/-- Embedding of the Python slice `s[:k]` for an `Int` stop index: a
non-negative stop takes that many characters (clamped), a negative stop
drops that many characters from the end (clamped). -/
def pySliceTo (l : List Char) (k : Int) : List Char :=
  if k < 0 then l.take (l.length - (-k).toNat)
  else l.take k.toNat

/-- Embedding of `truncate_string` with its default ending `"..."`:
`string[: min(length, len(string)) - len(ending)] + ending`. -/
def truncate_string (s : List Char) (len : Nat) : List Char :=
  pySliceTo s ((min len s.length : Nat) - (3 : Int)) ++ ['.', '.', '.']

/-! ## Helper lemmas -/

/-- The record returned by `handle_replay` is present exactly when the
entity was not a known duplicate, whatever the store holds. -/
theorem handle_replay_record_isSome (store : List String) (r : Replay)
    (resp : UploadResponse) :
    (handle_replay store r resp).record.isSome = !r.duplicate := by
  cases hr : r.duplicate
  · simp only [handle_replay, Replay.upload, hr, Bool.false_eq_true, if_false]
    split <;> simp
  · simp [handle_replay, Replay.upload, hr]

/-- The network-call count of `handle_replay` depends only on the
entity's construction-time duplicate flag. -/
theorem handle_replay_networkCalls (store : List String) (r : Replay)
    (resp : UploadResponse) :
    (handle_replay store r resp).networkCalls =
      if r.duplicate then 0 else 1 := by
  cases hr : r.duplicate
  · simp only [handle_replay, Replay.upload, hr, Bool.false_eq_true, if_false]
    split <;> simp
  · simp [handle_replay, Replay.upload, hr]

/-- Records and network calls of the upload loop are a function of the
entities alone: the evolving duplicates file never influences them,
because each entity carries its construction-time classification. -/
theorem runUploadLoop_spec (pairs : List (Replay × UploadResponse)) :
    ∀ s : List String,
    (runUploadLoop s pairs).records.map Option.isSome =
      pairs.map (fun p => !p.1.duplicate) ∧
    (runUploadLoop s pairs).networkCalls =
      (pairs.map (fun p => if p.1.duplicate then 0 else 1)).sum := by
  induction pairs with
  | nil => intro s; simp [runUploadLoop]
  | cons p rest ih =>
    intro s
    obtain ⟨ih1, ih2⟩ := ih (handle_replay s p.1 p.2).store
    simp [runUploadLoop, handle_replay_record_isSome,
      handle_replay_networkCalls, ih1, ih2]

/-- Dropping a trailing whitespace character commutes with `rstrip`. -/
theorem rstrip_append_space (w : List Char) (c : Char)
    (hc : isPySpace c = true) : rstrip (w ++ [c]) = rstrip w := by
  simp [rstrip, List.dropWhile_cons, hc]

/-- Unfolding of the decidable `cleanLine` predicate. -/
theorem cleanLine_iff (l : List Char) :
    cleanLine l = true ↔
      rstrip l ++ ['\n'] = l ∧ '\n' ∉ rstrip l := by
  simp [cleanLine]

/-- On a clean line, the writers put back exactly the line itself. -/
theorem writeLine_eq_of_clean (l : List Char) (h : cleanLine l = true) :
    writeLine l = l := ((cleanLine_iff l).mp h).1

/-- Reading a newline-free prefix followed by a newline yields that line,
whatever was accumulated before it. -/
theorem readlinesAux_clean (w : List Char) (hw : '\n' ∉ w) :
    ∀ (acc rest : List Char),
    readlinesAux (w ++ '\n' :: rest) acc =
      ((acc.reverse ++ w) ++ ['\n']) :: readlinesAux rest [] := by
  induction w with
  | nil => intro acc rest; simp [readlinesAux]
  | cons c w ih =>
    intro acc rest
    have hc2 : ¬ c = '\n' := fun he => hw (by simp [he])
    have hw2 : '\n' ∉ w := fun he => hw (by simp [he])
    simp only [List.cons_append, readlinesAux, if_neg hc2]
    change readlinesAux (w ++ '\n' :: rest) (c :: acc) = _
    rw [ih hw2 (c :: acc) rest]
    simp

/-- Reading content that starts with a clean line yields that line first. -/
theorem readlines_cons_of_clean (l rest : List Char)
    (hl : cleanLine l = true) :
    readlines (l ++ rest) = l :: readlines rest := by
  obtain ⟨h1, h2⟩ := (cleanLine_iff l).mp hl
  have hsplit : l ++ rest = rstrip l ++ '\n' :: rest := by
    conv_lhs => rw [← h1]
    simp
  rw [readlines, hsplit, readlinesAux_clean (rstrip l) h2 [] rest]
  simp [h1, readlines]

/-- Reading the concatenation of clean lines recovers exactly those
lines. -/
theorem readlines_flatten (L : List (List Char))
    (h : ∀ l ∈ L, cleanLine l = true) : readlines L.flatten = L := by
  induction L with
  | nil => rfl
  | cons l L ih =>
    rw [List.flatten_cons, readlines_cons_of_clean l L.flatten (h l (by simp))]
    rw [ih (fun x hx => h x (by simp [hx]))]

/-- Reading nonempty content yields at least one line. -/
theorem readlinesAux_ne_nil (content : List Char) :
    ∀ acc : List Char, content ≠ [] ∨ acc ≠ [] →
    readlinesAux content acc ≠ [] := by
  induction content with
  | nil =>
    intro acc h
    have : acc ≠ [] := h.resolve_left (by simp)
    simp [readlinesAux, this]
  | cons c rest ih =>
    intro acc _
    by_cases hc : c = '\n'
    · simp [readlinesAux, hc]
    · simp only [readlinesAux, if_neg hc]
      exact ih (c :: acc) (Or.inr (by simp))

/-- Reading nonempty content yields at least one line. -/
theorem readlines_ne_nil (content : List Char) (h : content ≠ []) :
    readlines content ≠ [] :=
  readlinesAux_ne_nil content [] (Or.inl h)

/-- Membership in the deduplicated list: present in the input and not
among the lines already emitted. -/
theorem mem_dedupFirstAux {α : Type} [DecidableEq α] (x : α) :
    ∀ (l seen : List α),
    x ∈ dedupFirstAux l seen ↔ x ∈ l ∧ x ∉ seen := by
  intro l
  induction l with
  | nil => intro seen; simp [dedupFirstAux]
  | cons y l ih =>
    intro seen
    by_cases hy : y ∈ seen
    · rw [dedupFirstAux, if_pos hy, ih seen]
      constructor
      · rintro ⟨hx, hns⟩
        exact ⟨List.mem_cons_of_mem y hx, hns⟩
      · rintro ⟨hx, hns⟩
        rcases List.mem_cons.mp hx with rfl | hx2
        · exact absurd hy hns
        · exact ⟨hx2, hns⟩
    · rw [dedupFirstAux, if_neg hy]
      simp only [List.mem_cons, ih (y :: seen)]
      by_cases hxy : x = y
      · subst hxy
        simp [hy]
      · simp [hxy]

/-- Membership is preserved by deduplication. -/
theorem mem_dedupFirst {α : Type} [DecidableEq α] (x : α) (l : List α) :
    x ∈ dedupFirst l ↔ x ∈ l := by
  rw [dedupFirst, mem_dedupFirstAux]
  simp

/-- The deduplicated list has no repeats. -/
theorem nodup_dedupFirstAux {α : Type} [DecidableEq α] :
    ∀ (l seen : List α), (dedupFirstAux l seen).Nodup := by
  intro l
  induction l with
  | nil => intro seen; simp [dedupFirstAux]
  | cons y l ih =>
    intro seen
    by_cases hy : y ∈ seen
    · rw [dedupFirstAux, if_pos hy]; exact ih seen
    · rw [dedupFirstAux, if_neg hy]
      refine List.nodup_cons.mpr ⟨?_, ih (y :: seen)⟩
      intro hmem
      exact ((mem_dedupFirstAux y l (y :: seen)).mp hmem).2 (by simp)

/-- The deduplicated list has no repeats. -/
theorem nodup_dedupFirst {α : Type} [DecidableEq α] (l : List α) :
    (dedupFirst l).Nodup := nodup_dedupFirstAux l []

/-- Deduplicating a list that already has no repeats (and avoids the
emitted lines) changes nothing. -/
theorem dedupFirstAux_eq_self {α : Type} [DecidableEq α] :
    ∀ (l seen : List α), l.Nodup → (∀ x ∈ l, x ∉ seen) →
    dedupFirstAux l seen = l := by
  intro l
  induction l with
  | nil => intro seen _ _; rfl
  | cons y l ih =>
    intro seen hnd hsub
    obtain ⟨hyl, hnd2⟩ := List.nodup_cons.mp hnd
    have hy : y ∉ seen := hsub y (by simp)
    rw [dedupFirstAux, if_neg hy, ih (y :: seen) hnd2]
    intro x hx
    simp only [List.mem_cons, not_or]
    exact ⟨fun he => hyl (he ▸ hx), hsub x (by simp [hx])⟩

/-- Deduplicating a repeat-free list changes nothing. -/
theorem dedupFirst_eq_self {α : Type} [DecidableEq α] (l : List α)
    (h : l.Nodup) : dedupFirst l = l :=
  dedupFirstAux_eq_self l [] h (by simp)

/-- Deduplication keeps at least one line of a nonempty input. -/
theorem dedupFirst_ne_nil {α : Type} [DecidableEq α] (l : List α)
    (h : l ≠ []) : dedupFirst l ≠ [] := by
  obtain ⟨x, xs, rfl⟩ := List.exists_cons_of_ne_nil h
  rw [dedupFirst, dedupFirstAux]
  simp

/-- The overwrite-then-append write sequence of the compactor produces
the concatenation of the written lines. -/
theorem foldl_append_writeLine (rest : List (List Char)) :
    ∀ first : List Char,
    rest.foldl (fun acc r => acc ++ writeLine r) first =
      first ++ (rest.map writeLine).flatten := by
  induction rest with
  | nil => intro first; simp
  | cons r rest ih =>
    intro first
    rw [List.foldl_cons, ih (first ++ writeLine r)]
    simp

/-- Writers are the identity on lists of clean lines. -/
theorem map_writeLine_clean :
    ∀ U : List (List Char), (∀ l ∈ U, cleanLine l = true) →
    U.map writeLine = U := by
  intro U
  induction U with
  | nil => intro _; rfl
  | cons u U ih =>
    intro h
    rw [List.map_cons, writeLine_eq_of_clean u (h u (by simp)),
      ih (fun x hx => h x (by simp [hx]))]

/-- Compaction of existing nonempty content neither errors nor deletes
the record: it rewrites the file with the deduplicated lines. -/
theorem remove_duplicate_lines_eq (content : List Char)
    (u : List Char) (rest : List (List Char))
    (h : dedupFirst (readlines content) = u :: rest) :
    remove_duplicate_lines_from_file (some content) =
      some (some (((u :: rest).map writeLine).flatten),
        (((u :: rest).map writeLine).flatten).length) := by
  have e : remove_duplicate_lines_from_file (some content) =
      (match dedupFirst (readlines content) with
       | [] => none
       | u :: rest =>
         let final := rest.foldl (fun acc r => acc ++ writeLine r) (writeLine u)
         some (some final, final.length)) := rfl
  rw [e, h]
  dsimp only
  rw [foldl_append_writeLine rest (writeLine u)]
  simp

/-! ## Claim theorems -/

/-- C1: for every remote status code, `upload_replay` returns exactly one
outcome among success, duplicate and fail: 201 gives success and 409 gives
duplicate, each carrying the id extracted from the response body (non-empty
whenever the body id is, as the remote contract guarantees); every other
status gives fail with no remote identifier. -/
theorem upload_replay_outcome_classification (resp : UploadResponse)
    (hid : resp.id ≠ "") :
    ((upload_replay resp).result = "success" ∨
      (upload_replay resp).result = "duplicate" ∨
      (upload_replay resp).result = "fail") ∧
    ((upload_replay resp).result = "success" ↔ resp.status_code = 201) ∧
    ((upload_replay resp).result = "duplicate" ↔ resp.status_code = 409) ∧
    ((upload_replay resp).result = "fail" ↔
      resp.status_code ≠ 201 ∧ resp.status_code ≠ 409) ∧
    (((upload_replay resp).result = "success" ∨
        (upload_replay resp).result = "duplicate") →
      (upload_replay resp).id = resp.id ∧ (upload_replay resp).id ≠ "") ∧
    ((upload_replay resp).result = "fail" → (upload_replay resp).id = "") := by
  by_cases h1 : resp.status_code = 201
  · simp [upload_replay, h1, hid]
  · by_cases h2 : resp.status_code = 409
    · simp [upload_replay, h1, h2, hid]
    · simp [upload_replay, h1, h2]

/-- Witness for C1 at a concrete 201 response. -/
theorem upload_replay_outcome_classification_witness :
    ((upload_replay ⟨201, "abc123"⟩).result = "success" ∨
      (upload_replay ⟨201, "abc123"⟩).result = "duplicate" ∨
      (upload_replay ⟨201, "abc123"⟩).result = "fail") ∧
    ((upload_replay ⟨201, "abc123"⟩).result = "success" ↔
      (⟨201, "abc123"⟩ : UploadResponse).status_code = 201) ∧
    ((upload_replay ⟨201, "abc123"⟩).result = "duplicate" ↔
      (⟨201, "abc123"⟩ : UploadResponse).status_code = 409) ∧
    ((upload_replay ⟨201, "abc123"⟩).result = "fail" ↔
      (⟨201, "abc123"⟩ : UploadResponse).status_code ≠ 201 ∧
      (⟨201, "abc123"⟩ : UploadResponse).status_code ≠ 409) ∧
    (((upload_replay ⟨201, "abc123"⟩).result = "success" ∨
        (upload_replay ⟨201, "abc123"⟩).result = "duplicate") →
      (upload_replay ⟨201, "abc123"⟩).id =
        (⟨201, "abc123"⟩ : UploadResponse).id ∧
      (upload_replay ⟨201, "abc123"⟩).id ≠ "") ∧
    ((upload_replay ⟨201, "abc123"⟩).result = "fail" →
      (upload_replay ⟨201, "abc123"⟩).id = "") :=
  upload_replay_outcome_classification ⟨201, "abc123"⟩ (by decide)

/-- C2: an entity whose basename is in the duplicate-store snapshot at
construction never reaches the network on `upload`: zero network calls,
the entity state is unchanged, and the returned record is `None`. -/
theorem replay_upload_skips_known_duplicate (known : List String)
    (path : String) (resp : UploadResponse)
    (h : Bcsync.basename path ∈ known) :
    (Replay.init known path).upload resp =
      { networkCalls := 0, replay := Replay.init known path, record := none } := by
  have hd : (Replay.init known path).duplicate = true := by
    simp [Replay.init, h]
  simp [Replay.upload, hd]

/-- Witness for C2: a path whose basename is already recorded. -/
theorem replay_upload_skips_known_duplicate_witness :
    (Replay.init ["g1.replay"] "x/g1.replay").upload ⟨201, "zzz"⟩ =
      { networkCalls := 0, replay := Replay.init ["g1.replay"] "x/g1.replay"
        record := none } :=
  replay_upload_skips_known_duplicate ["g1.replay"] "x/g1.replay" ⟨201, "zzz"⟩
    (by decide)

/-- C4: after every `update_session_statistics` call the derived totals
satisfy total_duplicates = old + new and total_replays = total_duplicates
+ new_uploads, hence new_uploads + new_duplicates + old_duplicates =
total_replays; this holds from any prior state, so it holds after any
number of ticks. -/
theorem update_session_statistics_conservation (sd : SessionData)
    (replays : List Replay) (rr : RunResult) :
    (update_session_statistics sd replays rr).total_duplicates =
      (update_session_statistics sd replays rr).old_duplicates +
      (update_session_statistics sd replays rr).new_duplicates ∧
    (update_session_statistics sd replays rr).total_replays =
      (update_session_statistics sd replays rr).total_duplicates +
      (update_session_statistics sd replays rr).new_uploads ∧
    (update_session_statistics sd replays rr).new_uploads +
      (update_session_statistics sd replays rr).new_duplicates +
      (update_session_statistics sd replays rr).old_duplicates =
      (update_session_statistics sd replays rr).total_replays := by
  refine ⟨rfl, rfl, ?_⟩
  simp [update_session_statistics]
  omega

/-- C5: within a tick, every entity is classified against the snapshot in
effect at discovery: the store appends performed by earlier iterations of
the upload loop never change which entities reach the network, so the
loop's record presence and network-call count are determined by the
initial snapshot alone — in particular two files sharing a basename that
is not yet recorded are both treated as non-duplicate and both uploaded. -/
theorem upload_loop_uses_discovery_snapshot (store : List String)
    (paths : List String) (resps : List UploadResponse)
    (h : paths.length ≤ resps.length) :
    (runUploadLoop store
        ((paths.map (Replay.init store)).zip resps)).records.map Option.isSome =
      paths.map (fun p => !decide (Bcsync.basename p ∈ store)) ∧
    (runUploadLoop store
        ((paths.map (Replay.init store)).zip resps)).networkCalls =
      (paths.map
        (fun p => if Bcsync.basename p ∈ store then 0 else 1)).sum := by
  obtain ⟨h1, h2⟩ :=
    runUploadLoop_spec ((paths.map (Replay.init store)).zip resps) store
  have hfst : ((paths.map (Replay.init store)).zip resps).map Prod.fst =
      paths.map (Replay.init store) := by
    apply List.map_fst_zip
    simpa using h
  constructor
  · rw [h1]
    have e : ((paths.map (Replay.init store)).zip resps).map
        (fun p => !p.1.duplicate) =
        (((paths.map (Replay.init store)).zip resps).map Prod.fst).map
          (fun r => !r.duplicate) := by
      rw [List.map_map]; rfl
    rw [e, hfst, List.map_map]
    rfl
  · rw [h2]
    have e : ((paths.map (Replay.init store)).zip resps).map
        (fun p => if p.1.duplicate then (0 : Nat) else 1) =
        (((paths.map (Replay.init store)).zip resps).map Prod.fst).map
          (fun r => if r.duplicate then (0 : Nat) else 1) := by
      rw [List.map_map]; rfl
    rw [e, hfst, List.map_map]
    have efun : ((fun r : Replay => if r.duplicate then (0 : Nat) else 1) ∘
        Replay.init store) =
        (fun p => if Bcsync.basename p ∈ store then (0 : Nat) else 1) := by
      funext p
      simp [Replay.init, Function.comp]
    rw [efun]

/-- Witness for C5: two files with the same basename, none recorded, both
answered 201 — both records are produced and two network calls happen. -/
theorem upload_loop_uses_discovery_snapshot_witness :
    (runUploadLoop []
        (((["x/a.replay", "y/a.replay"].map (Replay.init []))).zip
          [⟨201, "i1"⟩, ⟨201, "i2"⟩])).records.map Option.isSome =
      ["x/a.replay", "y/a.replay"].map
        (fun p => !decide (Bcsync.basename p ∈ ([] : List String))) ∧
    (runUploadLoop []
        (((["x/a.replay", "y/a.replay"].map (Replay.init []))).zip
          [⟨201, "i1"⟩, ⟨201, "i2"⟩])).networkCalls =
      (["x/a.replay", "y/a.replay"].map
        (fun p => if Bcsync.basename p ∈ ([] : List String) then 0 else 1)).sum :=
  upload_loop_uses_discovery_snapshot [] ["x/a.replay", "y/a.replay"]
    [⟨201, "i1"⟩, ⟨201, "i2"⟩] (by decide)

/-- C8: the basename of a processed file is appended to the duplicate
store exactly when its upload outcome is success or duplicate; on a fail
outcome nothing is written, so the next tick classifies the same path
exactly as this one did, and the file is retried. -/
theorem handle_replay_append_iff_success_or_duplicate (store : List String)
    (r : Replay) (resp : UploadResponse) :
    ((handle_replay store r resp).store =
      if r.duplicate = false ∧
          ((upload_replay resp).result = "success" ∨
            (upload_replay resp).result = "duplicate")
        then store ++ [r.basename] else store) ∧
    ((upload_replay resp).result = "fail" →
      (handle_replay store r resp).store = store ∧
      (Replay.init (handle_replay store r resp).store r.path).duplicate =
        (Replay.init store r.path).duplicate) := by
  have hmain : (handle_replay store r resp).store =
      if r.duplicate = false ∧
          ((upload_replay resp).result = "success" ∨
            (upload_replay resp).result = "duplicate")
        then store ++ [r.basename] else store := by
    cases hr : r.duplicate
    · simp only [handle_replay, Replay.upload, hr, Bool.false_eq_true, if_false]
      split
      · next hres => simp [hres]
      · next hres => simp [hres]
    · simp [handle_replay, Replay.upload, hr]
  refine ⟨hmain, fun hfail => ?_⟩
  have hstore : (handle_replay store r resp).store = store := by
    rw [hmain, hfail]
    have : ¬ (r.duplicate = false ∧
        (("fail" : String) = "success" ∨ ("fail" : String) = "duplicate")) := by
      rintro ⟨-, hc | hc⟩ <;> simp at hc
    rw [if_neg this]
  exact ⟨hstore, by rw [hstore]⟩

/-- Witness for C8: a non-duplicate entity whose upload fails with status
500 leaves the store empty and the next-tick classification unchanged. -/
theorem handle_replay_append_iff_success_or_duplicate_witness :
    (handle_replay [] (Replay.init [] "g.replay") ⟨500, "x"⟩).store = [] ∧
    (Replay.init
        (handle_replay [] (Replay.init [] "g.replay") ⟨500, "x"⟩).store
        "g.replay").duplicate =
      (Replay.init [] "g.replay").duplicate :=
  (handle_replay_append_iff_success_or_duplicate []
    (Replay.init [] "g.replay") ⟨500, "x"⟩).2 (by decide)

/-- C6: the check-only branch of `bcsync.main` returns from inside its
printing loop, so with two discovered entities only the first has its
attributes surfaced before the process exits, and with zero discovered
entities the tick is not cut short at all (control falls through to the
upload/reporting phase). -/
theorem check_mode_surfaces_only_first_entity :
    check_mode_tick
        [Replay.init [] "game1.replay", Replay.init [] "game2.replay"] =
      ([Replay.init [] "game1.replay"], true) ∧
    (check_mode_tick
        [Replay.init [] "game1.replay", Replay.init [] "game2.replay"]).1.length ≠
      [Replay.init [] "game1.replay", Replay.init [] "game2.replay"].length ∧
    (check_mode_tick []).2 = false := by
  refine ⟨rfl, ?_, rfl⟩
  decide

/-- C7: `write_rotated_log` takes the next index from the sidecar (absent
means 0, hence no suffix), suffixes the log filename with the index when
it is positive, wraps past the configured maximum back to 0, and stores
the used index back; in particular at sidecar 10 with the default maximum
10 it writes `<identifier>.log` with no suffix and resets the sidecar. -/
theorem write_rotated_log_rotation (rotate : Option Nat) (maxLogs : Nat)
    (identifier text : String) :
    (rotate = none →
      write_rotated_log rotate maxLogs identifier text =
        { log_file := identifier ++ ".log", content := text, rotate := 0 }) ∧
    (∀ i : Nat, rotate = some i → i + 1 ≤ maxLogs →
      write_rotated_log rotate maxLogs identifier text =
        { log_file := identifier ++ ".log" ++ toString (i + 1), content := text
          rotate := i + 1 }) ∧
    (∀ i : Nat, rotate = some i → maxLogs < i + 1 →
      write_rotated_log rotate maxLogs identifier text =
        { log_file := identifier ++ ".log", content := text, rotate := 0 }) ∧
    (rotate = some 10 → maxLogs = max_session_logfiles →
      write_rotated_log rotate maxLogs identifier text =
        { log_file := identifier ++ ".log", content := text, rotate := 0 }) := by
  refine ⟨?_, ?_, ?_, ?_⟩
  · rintro rfl
    simp [write_rotated_log, get_next_rotate_index]
  · rintro i rfl hle
    have hgt : ¬ i + 1 > maxLogs := by omega
    simp [write_rotated_log, get_next_rotate_index, hgt]
  · rintro i rfl hlt
    have hgt : i + 1 > maxLogs := hlt
    simp [write_rotated_log, get_next_rotate_index, hgt]
  · rintro rfl rfl
    simp [write_rotated_log, get_next_rotate_index, max_session_logfiles]

/-- Witness for C7 at the wraparound scenario: sidecar at 10, maximum 10. -/
theorem write_rotated_log_rotation_witness :
    write_rotated_log (some 10) max_session_logfiles "session" "report" =
      { log_file := "session" ++ ".log", content := "report", rotate := 0 } :=
  (write_rotated_log_rotation (some 10) max_session_logfiles "session"
    "report").2.2.2 rfl rfl

/-- C3 counterexample: compaction is not idempotent on arbitrary file
content. Content `"a\na"` (one basename repeated, last line
unterminated) compacts to `"a\na\n"` — two lines for the single unique
basename, because the raw lines `"a\n"` and `"a"` are distinct set
elements — and compacting that output yields `"a\n"`, different
content. -/
theorem compact_not_idempotent_on_unterminated_line :
    remove_duplicate_lines_from_file (some ['a', '\n', 'a']) =
      some (some ['a', '\n', 'a', '\n'], 4) ∧
    remove_duplicate_lines_from_file (some ['a', '\n', 'a', '\n']) =
      some (some ['a', '\n'], 2) ∧
    ¬ (readlines ['a', '\n', 'a', '\n']).Nodup ∧
    (['a', '\n', 'a', '\n'] : List Char) ≠ ['a', '\n'] := by decide

/-- C3 amended: on nonempty content made of newline-terminated lines with
no other trailing whitespace — the only shape the record's own writers
ever produce — compaction succeeds, is idempotent (compacting the output
reproduces it, byte for byte), and the compacted record carries exactly
one line per unique line: its lines are repeat-free and are exactly the
lines of the input. -/
theorem compact_idempotent_on_clean_lines (L : List (List Char))
    (hne : L ≠ []) (hclean : ∀ l ∈ L, cleanLine l = true) :
    ∃ out : List Char,
      remove_duplicate_lines_from_file (some L.flatten) =
        some (some out, out.length) ∧
      remove_duplicate_lines_from_file (some out) =
        some (some out, out.length) ∧
      (readlines out).Nodup ∧
      (∀ l : List Char, l ∈ readlines out ↔ l ∈ L) := by
  obtain ⟨u, rest, hcons⟩ :=
    List.exists_cons_of_ne_nil (dedupFirst_ne_nil L hne)
  have hUclean : ∀ l ∈ u :: rest, cleanLine l = true := by
    intro l hl
    exact hclean l ((mem_dedupFirst l L).mp (by rw [hcons]; exact hl))
  have hUnodup : (u :: rest).Nodup := by
    rw [← hcons]; exact nodup_dedupFirst L
  have hmap : (u :: rest).map writeLine = u :: rest :=
    map_writeLine_clean _ hUclean
  have hrl : readlines L.flatten = L := readlines_flatten L hclean
  have hDD : dedupFirst (readlines L.flatten) = u :: rest := by
    rw [hrl, hcons]
  have e1 := remove_duplicate_lines_eq L.flatten u rest hDD
  rw [hmap] at e1
  have hrl2 : readlines (u :: rest).flatten = u :: rest :=
    readlines_flatten _ hUclean
  have hDD2 : dedupFirst (readlines (u :: rest).flatten) = u :: rest := by
    rw [hrl2, dedupFirst_eq_self _ hUnodup]
  have e2 := remove_duplicate_lines_eq (u :: rest).flatten u rest hDD2
  rw [hmap] at e2
  refine ⟨(u :: rest).flatten, e1, e2, ?_, ?_⟩
  · rw [hrl2]; exact hUnodup
  · intro l
    rw [hrl2, ← hcons]
    exact mem_dedupFirst l L

/-- Witness for C3 amended, at the record
`"a\n" ++ "a\n" ++ "b\n"` (a repeated basename and a fresh one). -/
theorem compact_idempotent_on_clean_lines_witness :
    ∃ out : List Char,
      remove_duplicate_lines_from_file
          (some ([['a', '\n'], ['a', '\n'], ['b', '\n']] :
            List (List Char)).flatten) =
        some (some out, out.length) ∧
      remove_duplicate_lines_from_file (some out) =
        some (some out, out.length) ∧
      (readlines out).Nodup ∧
      (∀ l : List Char,
        l ∈ readlines out ↔
          l ∈ ([['a', '\n'], ['a', '\n'], ['b', '\n']] :
            List (List Char))) :=
  compact_idempotent_on_clean_lines [['a', '\n'], ['a', '\n'], ['b', '\n']]
    (by decide) (by decide)

/-- C10: compaction of an existing but empty record indexes the first
element of the empty unique-line list and fails (IndexError, the outer
`none`); an absent record returns 0 bytes written, and any nonempty
content compacts without error. -/
theorem compact_empty_existing_file_errors (content : List Char) :
    remove_duplicate_lines_from_file (some []) = none ∧
    remove_duplicate_lines_from_file none = some (none, 0) ∧
    (content ≠ [] →
      (remove_duplicate_lines_from_file (some content)).isSome = true) := by
  refine ⟨by decide, rfl, fun h => ?_⟩
  obtain ⟨u, rest, hcons⟩ :=
    List.exists_cons_of_ne_nil
      (dedupFirst_ne_nil _ (readlines_ne_nil content h))
  rw [remove_duplicate_lines_eq content u rest hcons]
  rfl

/-- Witness for C10 at the one-byte record `"a"`. -/
theorem compact_empty_existing_file_errors_witness :
    (remove_duplicate_lines_from_file (some ['a'])).isSome = true :=
  (compact_empty_existing_file_errors ['a']).2.2 (by decide)

/-- C9 counterexample: `truncate_string` does not keep the result within
the requested length for lengths smaller than the ellipsis marker: at
input string `"a"` and requested length 1 the result is `"..."`, of
length 3. -/
theorem truncate_string_exceeds_requested_length :
    1 < (truncate_string ['a'] 1).length := by decide

/-- C9 amended: whenever the requested length and the input length are at
least the 3 characters of the ellipsis marker, the result length is
exactly the minimum of the requested length and the input length, and in
particular never exceeds the requested length. -/
theorem truncate_string_length_bounded (s : List Char) (n : Nat)
    (hn : 3 ≤ n) (hs : 3 ≤ s.length) :
    (truncate_string s n).length = min n s.length ∧
    (truncate_string s n).length ≤ n := by
  have hm : 3 ≤ min n s.length := le_min hn hs
  have hnonneg : ¬ ((min n s.length : Nat) : Int) - 3 < 0 := by omega
  have htn : (((min n s.length : Nat) : Int) - 3).toNat = min n s.length - 3 := by
    omega
  have key : (truncate_string s n).length = min n s.length := by
    unfold truncate_string pySliceTo
    rw [if_neg hnonneg, htn]
    simp only [List.length_append, List.length_take, List.length_cons,
      List.length_nil]
    omega
  exact ⟨key, by omega⟩

/-- Witness for C9 amended, at string `"abcdef"` and requested length 4. -/
theorem truncate_string_length_bounded_witness :
    (truncate_string ['a', 'b', 'c', 'd', 'e', 'f'] 4).length =
      min 4 (['a', 'b', 'c', 'd', 'e', 'f'] : List Char).length ∧
    (truncate_string ['a', 'b', 'c', 'd', 'e', 'f'] 4).length ≤ 4 :=
  truncate_string_length_bounded ['a', 'b', 'c', 'd', 'e', 'f'] 4
    (by decide) (by decide)

end Bcsync
